import Mathlib

/-!
Verification development for the VyOSweb Configuration Apply Engine
(`src/server/vyos.ts` and the `/api/routers/apply` route).

The TypeScript code is shallowly embedded: pure string manipulation is
translated to Lean functions over `String` / `List Char`; the effectful
SSH layer is abstracted by an environment (`World`) that fixes, for each
remote command the engine may issue, the outcome the remote side would
produce (an exec-level error / timeout rejection, or stdout, stderr and
an optional numeric exit code).  `applyVyOSConfig` is then a pure
function of the request and that environment, returning the final result
(or propagated error) together with an instrumentation trace: the logs
array as the code maintains it, the list of wrapper commands issued and
flags recording which fallback strategies were started.
-/

namespace VyOS

/-- Whitespace as used by JavaScript `String.prototype.trim` and the `\s`
regex class, restricted to the code points that can realistically occur
in configuration text (ASCII whitespace plus NBSP and BOM; the exotic
Unicode space range is elided). -/
def isWS (c : Char) : Bool :=
  c = ' ' || c = '\t' || c = '\n' || c = '\x0d' ||
  c = '\x0b' || c = '\x0c' || c = ' ' || c = '﻿'

/-- `l.trim()` on the character list: drop whitespace from both ends. -/
def trimL (l : List Char) : List Char :=
  ((l.dropWhile isWS).reverse.dropWhile isWS).reverse

/-- `s.trim()` (vyos.ts uses it on lines and on logged stdout/stderr). -/
def trimStr (s : String) : String := ⟨trimL s.data⟩

/-- `configuration.split('\n')` on the character list. -/
def splitNl : List Char → List (List Char)
  | [] => [[]]
  | c :: rest =>
    let r := splitNl rest
    if c = '\n' then [] :: r
    else
      match r with
      | [] => [[c]]
      | h :: t => (c :: h) :: t

/-- `s.split('\n')` as in vyos.ts lines 155 and 209. -/
def splitLines (s : String) : List String :=
  (splitNl s.data).map (fun l => ⟨l⟩)

/-- `l.startsWith('#')` on the character list. -/
def startsHashL : List Char → Bool
  | '#' :: _ => true
  | _ => false

/-- The regex test `/^(set|delete)\s/.test(l)`: the line begins with
`set` or `delete` followed by one whitespace character. -/
def startsSetDeleteL : List Char → Bool
  | 's' :: 'e' :: 't' :: c :: _ => isWS c
  | 'd' :: 'e' :: 'l' :: 'e' :: 't' :: 'e' :: c :: _ => isWS c
  | _ => false

/-- The filter predicate of vyos.ts lines 31 and 158:
`l && !l.startsWith('#') && (/^(set|delete)\s/.test(l))`. -/
def keepDirective (l : String) : Bool :=
  (!(l == "")) && (!(startsHashL l.data)) && startsSetDeleteL l.data

/-- `safeLines` as computed inside `buildVyOSScript` (vyos.ts 29-31):
`lines.map(l => l.trim()).filter(...)`. -/
def buildSafeLines (lines : List String) : List String :=
  (lines.map trimStr).filter keepDirective

/-- `setDeleteLines` as computed in `applyVyOSConfig` (vyos.ts 155-158):
`configuration.split('\n').map(l => l.trim()).filter(...)`. -/
def setDeleteLinesOf (configuration : String) : List String :=
  ((splitLines configuration).map trimStr).filter keepDirective

/-- `buildVyOSScript` (vyos.ts 28-51): the one-shot vbash script joined
with `&&` so the sequence stops at the first failure. -/
def buildVyOSScript (lines : List String) (commit save dryRun : Bool) : String :=
  let safeLines := buildSafeLines lines
  let parts : List String :=
    ["source /opt/vyatta/etc/functions/script-template", "configure"] ++ safeLines
  let parts :=
    if dryRun then parts ++ ["discard"]
    else parts ++ (if commit then ["commit"] else []) ++ (if save then ["save"] else [])
  let parts := parts ++ ["exit"]
  String.intercalate " && " parts

/-- The outcome the remote side produces for one `exec` call
(`execOverSsh` raced against its timeout): either the promise rejects
(stream error or timeout), or the stream closes with collected stdout,
stderr and an exit code that may be `null`. -/
inductive ExecOutcome where
  | err (message : String)
  | done (stdout stderr : String) (code : Option Int)
deriving DecidableEq

/-- The log lines `runWrapper` pushes for one exec result (vyos.ts
167-168): `if (stdout) log(stdout.trim()); if (stderr) log(stderr.trim())`. -/
def stepLogs : ExecOutcome → List String
  | .err _ => []
  | .done out errS _ =>
    (if out == "" then [] else [trimStr out]) ++
    (if errS == "" then [] else [trimStr errS])

/-- The success/failure decision of `runWrapper` (vyos.ts 161-170): the
exec rejection propagates; otherwise `if (code && code !== 0) throw new
Error(cmd + " failed (" + code + "): " + (stderr || stdout))` — a `null`
or zero exit code is falsy and raises nothing. -/
def stepResult (cmd : String) : ExecOutcome → Except String Unit
  | .err m => .error m
  | .done out errS code =>
    match code with
    | some c =>
      if c == 0 then .ok ()
      else .error (cmd ++ " failed (" ++ toString c ++ "): " ++ (if errS == "" then out else errS))
    | none => .ok ()

/-- The error message of a wrapper step, when it fails. -/
def stepErrMsg (cmd : String) (o : ExecOutcome) : Option String :=
  match stepResult cmd o with
  | .error m => some m
  | .ok _ => none

/-- Whether a wrapper step succeeds. -/
def stepOk (cmd : String) (o : ExecOutcome) : Bool :=
  match stepResult cmd o with
  | .error _ => false
  | .ok _ => true

/-- `ok: !code` in `testSshCommand` (vyos.ts 245): JavaScript `!` on the
exit code, so a `null` or `0` code yields `true`. -/
def jsNotCode : Option Int → Bool
  | none => true
  | some c => c == 0

/-- Result shape of `testSshCommand`. -/
structure TestResult where
  ok : Bool
  stdout : String
  stderr : String
deriving DecidableEq

/-- `testSshCommand` (vyos.ts 230-249): connect, run the single command
raced against its timeout, and return `{ ok: !code, stdout, stderr }`;
a connect error or race rejection propagates. -/
def testSshCommand (connect : Except String Unit) (execO : ExecOutcome) :
    Except String TestResult :=
  match connect with
  | .error e => .error e
  | .ok _ =>
    match execO with
    | .err m => .error m
    | .done out errS code => .ok ⟨jsNotCode code, out, errS⟩

/-- JavaScript `password || ""`: the empty string is falsy. -/
def jsOrEmpty : Option String → String
  | none => ""
  | some s => if s == "" then "" else s

/-- The keyboard-interactive handler of `applyVyOSConfig` (vyos.ts
147-150): `prompts.map(() => password || "")`. -/
def applyKbResponses (password : Option String) (prompts : List String) : List String :=
  prompts.map (fun _ => jsOrEmpty password)

/-- The keyboard-interactive handler of `testSshCommand` (vyos.ts 237):
`finish(prompts.map(() => password || ''))`. -/
def testKbResponses (password : Option String) (prompts : List String) : List String :=
  prompts.map (fun _ => jsOrEmpty password)

end VyOS

namespace VyOS

/-- Instrumentation carried through one `applyVyOSConfig` call: the
`logs` array exactly as the code appends to it, plus ghost observations
(the `cmd` arguments of every `runWrapper` invocation in order, whether
the interactive and batch fallback strategies were started, and the
vbash script built for the batch strategy). -/
structure Trace where
  logs : List String
  wrapperCmds : List String
  interactiveAttempted : Bool
  batchAttempted : Bool
  batchScript : Option String
deriving DecidableEq

def Trace.empty : Trace := ⟨[], [], false, false, none⟩

/-- `log(line)` (vyos.ts 138-140): `logs.push(line)`. -/
def Trace.log (t : Trace) (line : String) : Trace :=
  { t with logs := t.logs ++ [line] }

/-- One `runWrapper(cmd)` call (vyos.ts 161-170) against the outcome `o`
the remote side produces for it: record the command, push the log lines,
and succeed or fail as `stepResult` decides. -/
def runWrapperStep (cmd : String) (o : ExecOutcome) (t : Trace) :
    Trace × Except String Unit :=
  ({ t with wrapperCmds := t.wrapperCmds ++ [cmd], logs := t.logs ++ stepLogs o },
   stepResult cmd o)

/-- The environment for the non-interactive wrapper strategy: the
outcome of each wrapper command it can issue (each is issued at most
once per call; directive `i` gets `directiveC i`). -/
structure WrapperWorld where
  beginC : ExecOutcome
  directiveC : Nat → ExecOutcome
  compareC : ExecOutcome
  discardC : ExecOutcome
  commitC : ExecOutcome
  saveC : ExecOutcome
  endC : ExecOutcome

/-- The whole environment of one `applyVyOSConfig` call: session
establishment (vyos.ts 142-152), the wrapper strategy's command
outcomes, the outcome of `runConfigureInteractive`, and the outcome of
the single vbash exec of the batch strategy. -/
structure World where
  connect : Except String Unit
  wrapper : WrapperWorld
  interactive : Except String Unit
  batch : ExecOutcome

/-- The result object of `applyVyOSConfig` without the `logs` field.  In
the code each `return { applied, commit, saved, dryRun, logs }` captures
a reference to the `logs` array, which cleanup steps running inside
`finally` may still extend before the function actually returns; the
model therefore keeps the flags here and attaches the final `Trace.logs`
at the end. -/
structure ApplyCore where
  applied : Bool
  commit : Bool
  saved : Bool
  dryRun : Bool
deriving DecidableEq

/-- The directive loop (vyos.ts 176-178): issue each filtered line as a
wrapper command; the first failure aborts the remaining lines. -/
def runSeq (d : Nat → ExecOutcome) : List String → Nat → Trace → Trace × Except String Unit
  | [], _, t => (t, .ok ())
  | l :: rest, i, t =>
    match runWrapperStep l (d i) t with
    | (t2, .error e) => (t2, .error e)
    | (t2, .ok _) => runSeq d rest (i + 1) t2

/-- The dry-run block (vyos.ts 180-187):
`try { await runWrapper('compare') } finally { await runWrapper('discard') }`
then `return { applied: false, commit: false, saved: false, dryRun: true, logs }`.
Both commands always run; if `discard` throws, its error (raised in the
`finally`) replaces a pending `compare` error. -/
def dryBlock (ww : WrapperWorld) (t : Trace) : Trace × Except String ApplyCore :=
  let p1 := runWrapperStep "compare" ww.compareC t
  let p2 := runWrapperStep "discard" ww.discardC p1.1
  match p2.2 with
  | .error ed => (p2.1, .error ed)
  | .ok _ =>
    match p1.2 with
    | .error ec => (p2.1, .error ec)
    | .ok _ => (p2.1, .ok ⟨false, false, false, true⟩)

end VyOS

namespace VyOS

/-- The commit/save block (vyos.ts 189-192): `if (commit) await
runWrapper('commit', 30000); if (save) await runWrapper('save', 15000);
return { applied: true, commit: !!commit, saved: !!save, dryRun: false, logs }`. -/
def commitSaveBlock (ww : WrapperWorld) (commit save : Bool) (t : Trace) :
    Trace × Except String ApplyCore :=
  let p1 := if commit then runWrapperStep "commit" ww.commitC t else (t, .ok ())
  match p1.2 with
  | .error e => (p1.1, .error e)
  | .ok _ =>
    let p2 := if save then runWrapperStep "save" ww.saveC p1.1 else (p1.1, .ok ())
    match p2.2 with
    | .error e => (p2.1, .error e)
    | .ok _ => (p2.1, .ok ⟨true, commit, save, false⟩)

/-- The body of the inner `try` of the wrapper strategy (vyos.ts
175-192): the directive loop, then the dry-run block or the commit/save
block. -/
def wrapperBody (ww : WrapperWorld) (lines : List String)
    (commit save dryRun : Bool) (t : Trace) : Trace × Except String ApplyCore :=
  match runSeq ww.directiveC lines 0 t with
  | (t1, .error e) => (t1, .error e)
  | (t1, .ok _) =>
    if dryRun then dryBlock ww t1 else commitSaveBlock ww commit save t1

/-- The part of the wrapper strategy that runs once `begin` has
succeeded (vyos.ts 175-199): the inner `try` body, and in the `finally`
always issue `end` once, catching and logging its failure without
touching the primary result or error. -/
def wrapperAfterBegin (ww : WrapperWorld) (lines : List String)
    (commit save dryRun : Bool) (t1 : Trace) : Trace × Except String ApplyCore :=
  let pb := wrapperBody ww lines commit save dryRun t1
  let pe := runWrapperStep "end" ww.endC pb.1
  let t4 :=
    match pe.2 with
    | .error em => pe.1.log ("end failed: " ++ em)
    | .ok _ => pe.1
  (t4, pb.2)

/-- The whole non-interactive wrapper strategy (vyos.ts 172-199): log the
banner, issue `begin` (its failure aborts the attempt with no cleanup,
as `begin` stands before the inner `try`), then run the bracketed body. -/
def wrapperPhase (ww : WrapperWorld) (lines : List String)
    (commit save dryRun : Bool) (t : Trace) : Trace × Except String ApplyCore :=
  let t0 := t.log "Applying via vyatta-cfg-cmd-wrapper (begin/session)"
  match runWrapperStep "begin" ww.beginC t0 with
  | (t1, .error e) => (t1, .error e)
  | (t1, .ok _) => wrapperAfterBegin ww lines commit save dryRun t1

/-- The vbash batch-script fallback (vyos.ts 208-224): log the banner,
exec the script raced against its timeout, log stdout/stderr, fail on a
truthy non-zero exit code, and on failure log and rethrow. -/
def batchStep (o : ExecOutcome) (commit save dryRun : Bool) (script : String)
    (t : Trace) : Trace × Except String ApplyCore :=
  let t0 := { t.log "Fallback: executing script via vbash" with
              batchAttempted := true, batchScript := some script }
  match o with
  | .err m => (t0.log ("Fallback failed: " ++ m), .error m)
  | .done out errS code =>
    let t1 := { t0 with logs := t0.logs ++ stepLogs (.done out errS code) }
    match code with
    | some c =>
      if c == 0 then (t1, .ok ⟨!dryRun, commit && !dryRun, save && !dryRun, dryRun⟩)
      else
        let msg := "Apply failed (" ++ toString c ++ "): " ++ (if errS == "" then out else errS)
        (t1.log ("Fallback failed: " ++ msg), .error msg)
    | none => (t1, .ok ⟨!dryRun, commit && !dryRun, save && !dryRun, dryRun⟩)

/-- `RouterApplyRequest` after zod parsing: optional fields may be
absent; vyos.ts 133 applies the defaults `port = 22`, `commit = true`,
`save = true`, `dryRun = false` by destructuring. -/
structure ApplyRequest where
  host : String
  port : Option Nat
  username : String
  password : Option String
  privateKey : Option String
  configuration : String
  commit : Option Bool
  save : Option Bool
  dryRun : Option Bool
deriving DecidableEq

/-- `applyVyOSConfig` (vyos.ts 132-228) over an abstract environment:
connect (a failure rejects before any strategy); filter the directives;
run the wrapper strategy; on its failure run `runConfigureInteractive`
(vyos.ts 200-204); if that also throws, the outer catch runs the vbash
batch script (vyos.ts 205-224), whose failure is rethrown to the caller.
Returns the final trace and the result or propagated error. -/
def applyVyOSConfig (w : World) (req : ApplyRequest) :
    Trace × Except String ApplyCore :=
  match w.connect with
  | .error e => (Trace.empty, .error e)
  | .ok _ =>
    let commit := req.commit.getD true
    let save := req.save.getD true
    let dryRun := req.dryRun.getD false
    let lines := setDeleteLinesOf req.configuration
    match wrapperPhase w.wrapper lines commit save dryRun Trace.empty with
    | (t1, .ok r) => (t1, .ok r)
    | (t1, .error e) =>
      let t2 := { t1.log ("Wrapper mode failed: " ++ e ++ "; trying interactive configure")
                  with interactiveAttempted := true }
      match w.interactive with
      | .ok _ => (t2, .ok ⟨!dryRun, commit && !dryRun, save && !dryRun, dryRun⟩)
      | .error ie =>
        let t3 := t2.log ("Wrapper mode failed: " ++ ie)
        let script := buildVyOSScript (splitLines req.configuration) commit save dryRun
        batchStep w.batch commit save dryRun script t3

/-- What the `/api/routers/apply` route does with the native call
(openai.ts concatenation, registerRoutes 411-444): a fulfilled
`applyVyOSConfig` is answered directly; any rejection is caught and the
python3 netmiko helper is spawned with `JSON.stringify(input)` — the
exact request — on its stdin. -/
inductive RouteOutcome where
  | native (r : ApplyCore) (logs : List String)
  | netmiko (payload : ApplyRequest)
deriving DecidableEq

/-- The apply route's strategy selection. -/
def routeApply (w : World) (req : ApplyRequest) : RouteOutcome :=
  match applyVyOSConfig w req with
  | (t, .ok r) => .native r t.logs
  | (_, .error _) => .netmiko req

/-- The four time-seeded sentinel tokens of `runConfigureInteractive`
(vyos.ts 60-63), with `Date.now()` abstracted as `now`. -/
def sentinelEnd (now : Nat) : String := "__END_" ++ toString now ++ "__"

def sentinelCommit (now : Nat) : String := "__COMMIT_" ++ toString now ++ "__"

def sentinelSave (now : Nat) : String := "__SAVE_" ++ toString now ++ "__"

def sentinelCompare (now : Nat) : String := "__COMPARE_" ++ toString now ++ "__"

/-- The sequence of lines `runConfigureInteractive` writes into the
shell channel (vyos.ts 103-127), in order; each is sent with a trailing
newline by `write`. -/
def interactiveWrites (setDeleteLines : List String)
    (commit save dryRun : Bool) (now : Nat) : List String :=
  let w1 : List String := ["configure"]
  let w2 := w1 ++ setDeleteLines
  if dryRun then
    w2 ++ ["compare", "run echo " ++ sentinelCompare now, "discard",
           "run echo " ++ sentinelEnd now, "exit"]
  else
    let w3 := if commit then w2 ++ ["commit", "run echo " ++ sentinelCommit now] else w2
    let w4 := if save then w3 ++ ["save", "run echo " ++ sentinelSave now] else w3
    w4 ++ ["run echo " ++ sentinelEnd now, "exit"]

end VyOS

namespace VyOS

theorem head?_dropWhile_false (p : Char → Bool) :
    ∀ l : List Char, ∀ a, (l.dropWhile p).head? = some a → p a = false := by
  intro l
  induction l with
  | nil => intro a h; simp [List.dropWhile] at h
  | cons b t ih =>
    intro a h
    rw [List.dropWhile_cons] at h
    by_cases hp : p b
    · rw [if_pos hp] at h
      exact ih a h
    · rw [if_neg hp] at h
      simp only [List.head?_cons, Option.some.injEq] at h
      rw [← h]
      exact Bool.eq_false_iff.mpr hp

theorem getLast?_dropWhile (p : Char → Bool) :
    ∀ l : List Char, l.dropWhile p ≠ [] → (l.dropWhile p).getLast? = l.getLast? := by
  intro l
  induction l with
  | nil => intro h; simp [List.dropWhile] at h
  | cons b t ih =>
    intro hne
    rw [List.dropWhile_cons] at hne ⊢
    by_cases hp : p b
    · rw [if_pos hp] at hne ⊢
      have ht : t ≠ [] := by
        intro he
        rw [he] at hne
        simp [List.dropWhile] at hne
      rw [ih hne]
      cases t with
      | nil => exact absurd rfl ht
      | cons c t2 => rw [List.getLast?_cons_cons]
    · rw [if_neg hp]

theorem dropWhile_eq_self_of_head (p : Char → Bool) (l : List Char)
    (h : ∀ a, l.head? = some a → p a = false) : l.dropWhile p = l := by
  cases l with
  | nil => rfl
  | cons b t =>
    rw [List.dropWhile_cons, if_neg]
    intro hb
    have := h b rfl
    rw [this] at hb
    exact Bool.false_ne_true hb

theorem trimL_head (l : List Char) :
    ∀ a, (trimL l).head? = some a → isWS a = false := by
  intro a h
  unfold trimL at h
  rw [List.head?_reverse] at h
  have hne : ((l.dropWhile isWS).reverse.dropWhile isWS) ≠ [] := by
    intro he
    rw [he] at h
    simp at h
  rw [getLast?_dropWhile isWS _ hne, List.getLast?_reverse] at h
  exact head?_dropWhile_false isWS l a h

theorem trimL_getLast (l : List Char) :
    ∀ a, (trimL l).getLast? = some a → isWS a = false := by
  intro a h
  unfold trimL at h
  rw [List.getLast?_reverse] at h
  exact head?_dropWhile_false isWS _ a h

theorem trimL_fixed (l : List Char)
    (hh : ∀ a, l.head? = some a → isWS a = false)
    (hl : ∀ a, l.getLast? = some a → isWS a = false) : trimL l = l := by
  unfold trimL
  rw [dropWhile_eq_self_of_head isWS l hh]
  rw [dropWhile_eq_self_of_head isWS l.reverse]
  · exact List.reverse_reverse l
  · intro a ha
    rw [List.head?_reverse] at ha
    exact hl a ha

theorem trimL_idem (l : List Char) : trimL (trimL l) = trimL l :=
  trimL_fixed (trimL l) (trimL_head l) (trimL_getLast l)

theorem trimStr_idem (s : String) : trimStr (trimStr s) = trimStr s := by
  unfold trimStr
  exact congrArg String.mk (trimL_idem s.data)

theorem filter_filter_self {α : Type} (p : α → Bool) (l : List α) :
    (l.filter p).filter p = l.filter p := by
  induction l with
  | nil => rfl
  | cons a t ih => by_cases hp : p a <;> simp [List.filter_cons, hp, ih]

theorem keep_of_mem_buildSafeLines {x : String} {ls : List String}
    (h : x ∈ buildSafeLines ls) : keepDirective x = true :=
  (List.mem_filter.mp h).2

theorem keep_of_mem_setDeleteLines {x : String} {cfg : String}
    (h : x ∈ setDeleteLinesOf cfg) : keepDirective x = true :=
  (List.mem_filter.mp h).2

/-- C8: the directive filter (trim each line, then keep only non-empty
lines that do not start with `#` and that match `^(set|delete)\s`) is
idempotent — applying it twice to any list of lines equals applying it
once — every surviving line is a non-blank, non-comment `set`/`delete`
line (so all blank and comment lines are removed), and the survivors
appear as a sublist of the trimmed input, preserving relative order. -/
theorem directive_filter_idempotent (ls : List String) :
    buildSafeLines (buildSafeLines ls) = buildSafeLines ls ∧
    (buildSafeLines ls).all keepDirective = true ∧
    List.Sublist (buildSafeLines ls) (ls.map trimStr) := by
  refine ⟨?_, ?_, ?_⟩
  · show ((((ls.map trimStr).filter keepDirective).map trimStr).filter keepDirective) =
      (ls.map trimStr).filter keepDirective
    have hmap : ((ls.map trimStr).filter keepDirective).map trimStr =
        (ls.map trimStr).filter keepDirective := by
      have hcong : ∀ x ∈ (ls.map trimStr).filter keepDirective, trimStr x = id x := by
        intro x hx
        have hx2 : x ∈ ls.map trimStr := List.mem_of_mem_filter hx
        obtain ⟨y, _, rfl⟩ := List.mem_map.mp hx2
        exact trimStr_idem y
      rw [List.map_congr_left hcong, List.map_id]
    rw [hmap, filter_filter_self]
  · exact List.all_eq_true.mpr (fun x hx => (List.mem_filter.mp hx).2)
  · exact List.filter_sublist _

/-- C9: the filtering inside the Batch Script strategy
(`buildVyOSScript`'s `safeLines`, applied to `configuration.split('\n')`)
yields exactly the directive list that `applyVyOSConfig` computes
(`setDeleteLines`) and feeds to the Non-Interactive and Interactive
strategies. -/
theorem strategy_filters_agree (configuration : String) :
    buildSafeLines (splitLines configuration) = setDeleteLinesOf configuration := rfl

/-- C10: every keyboard-interactive prompt list is answered with exactly
one response per prompt, each equal to the supplied password (or the
empty string when none was supplied), in both `applyVyOSConfig` and
`testSshCommand`. -/
theorem kb_prompts_all_answered (password : Option String) (prompts : List String) :
    (applyKbResponses password prompts).length = prompts.length ∧
    (applyKbResponses password prompts).all (fun r => r == password.getD "") = true ∧
    (testKbResponses password prompts).length = prompts.length ∧
    (testKbResponses password prompts).all (fun r => r == password.getD "") = true := by
  have hj : jsOrEmpty password = password.getD "" := by
    cases password with
    | none => rfl
    | some s => by_cases h : s = "" <;> simp [jsOrEmpty, h]
  refine ⟨List.length_map _ _, ?_, List.length_map _ _, ?_⟩ <;>
    simp [applyKbResponses, testKbResponses, List.all_eq_true, hj]

/-- C6 counterexample: a single-command execution closing with a `null`
(indeterminate) exit code and non-empty stderr is NOT treated as a
failure — `runWrapper`'s check `code && code !== 0` is falsy on `null`,
so no error is raised, and `testSshCommand` returns `ok: !code = true`. -/
theorem null_exit_code_cx :
    stepResult "show version" (ExecOutcome.done "" "permission denied" none) = Except.ok () ∧
    testSshCommand (Except.ok ()) (ExecOutcome.done "" "permission denied" none) =
      Except.ok ⟨true, "", "permission denied"⟩ :=
  ⟨rfl, rfl⟩

/-- C6 amended: only a non-null, non-zero exit code is treated as a
failure; a `null` (indeterminate) exit code is treated as success
regardless of stderr content — `runWrapper` raises no error and
`testSshCommand` returns `ok = true`. -/
theorem null_exit_code_amended (cmd out errS : String) (t : Trace) :
    (runWrapperStep cmd (ExecOutcome.done out errS none) t).2 = Except.ok () ∧
    testSshCommand (Except.ok ()) (ExecOutcome.done out errS none) =
      Except.ok ⟨true, out, errS⟩ ∧
    (∀ c : Int, c ≠ 0 →
      (runWrapperStep cmd (ExecOutcome.done out errS (some c)) t).2 =
        Except.error (cmd ++ " failed (" ++ toString c ++ "): " ++
          (if errS == "" then out else errS)) ∧
      testSshCommand (Except.ok ()) (ExecOutcome.done out errS (some c)) =
        Except.ok ⟨false, out, errS⟩) := by
  refine ⟨rfl, rfl, ?_⟩
  intro c hc
  constructor
  · simp [runWrapperStep, stepResult, hc]
  · simp [testSshCommand, jsNotCode, hc]

theorem null_exit_code_amended_witness :
    (runWrapperStep "show version" (ExecOutcome.done "" "oops" none) Trace.empty).2 =
      Except.ok () ∧
    ((1 : Int) ≠ 0 ∧
      testSshCommand (Except.ok ()) (ExecOutcome.done "" "oops" (some 1)) =
        Except.ok ⟨false, "", "oops"⟩) := by
  have h := null_exit_code_amended "show version" "" "oops" Trace.empty
  exact ⟨h.1, by decide, (h.2.2 1 (by decide)).2⟩

end VyOS

namespace VyOS

theorem ne_run_echo_of_short (w z : String) (hw : w.length < 9) :
    w ≠ "run echo " ++ z := by
  intro h
  have hlen := congrArg String.length h
  rw [String.length_append] at hlen
  have h9 : ("run echo ").length = 9 := rfl
  omega

/-- C7: the lines `runConfigureInteractive` writes into the channel, in
exact order: `configure`; each filtered directive line; then on a dry
run `compare`, the compare-marker echo, `discard`, the end-marker echo
and `exit` (so `commit` and `save` are never written); otherwise
`commit` plus the commit-marker echo when commit is requested, `save`
plus the save-marker echo when save is requested, the end-marker echo
and `exit`. -/
theorem interactive_write_order (cfg : String) (c s : Bool) (now : Nat) :
    interactiveWrites (setDeleteLinesOf cfg) c s true now =
      ["configure"] ++ setDeleteLinesOf cfg ++
        ["compare", "run echo " ++ sentinelCompare now, "discard",
         "run echo " ++ sentinelEnd now, "exit"] ∧
    "commit" ∉ interactiveWrites (setDeleteLinesOf cfg) c s true now ∧
    "save" ∉ interactiveWrites (setDeleteLinesOf cfg) c s true now ∧
    interactiveWrites (setDeleteLinesOf cfg) c s false now =
      ["configure"] ++ setDeleteLinesOf cfg ++
        (if c then ["commit", "run echo " ++ sentinelCommit now] else []) ++
        (if s then ["save", "run echo " ++ sentinelSave now] else []) ++
        ["run echo " ++ sentinelEnd now, "exit"] := by
  have hdry : interactiveWrites (setDeleteLinesOf cfg) c s true now =
      ["configure"] ++ setDeleteLinesOf cfg ++
        ["compare", "run echo " ++ sentinelCompare now, "discard",
         "run echo " ++ sentinelEnd now, "exit"] := rfl
  have hmem : ∀ x, x ∈ interactiveWrites (setDeleteLinesOf cfg) c s true now →
      x = "configure" ∨ x ∈ setDeleteLinesOf cfg ∨ x = "compare" ∨
      x = "run echo " ++ sentinelCompare now ∨ x = "discard" ∨
      x = "run echo " ++ sentinelEnd now ∨ x = "exit" := by
    intro x hx
    rw [hdry] at hx
    simp only [List.mem_append, List.mem_cons, List.mem_singleton,
      List.not_mem_nil, or_false] at hx
    tauto
  refine ⟨hdry, ?_, ?_, ?_⟩
  · intro h
    rcases hmem _ h with h1 | h2 | h3 | h4 | h5 | h6 | h7
    · exact absurd h1 (by decide)
    · have := keep_of_mem_setDeleteLines h2
      exact absurd this (by decide)
    · exact absurd h3 (by decide)
    · exact ne_run_echo_of_short "commit" (sentinelCompare now) (by decide) h4
    · exact absurd h5 (by decide)
    · exact ne_run_echo_of_short "commit" (sentinelEnd now) (by decide) h6
    · exact absurd h7 (by decide)
  · intro h
    rcases hmem _ h with h1 | h2 | h3 | h4 | h5 | h6 | h7
    · exact absurd h1 (by decide)
    · have := keep_of_mem_setDeleteLines h2
      exact absurd this (by decide)
    · exact absurd h3 (by decide)
    · exact ne_run_echo_of_short "save" (sentinelCompare now) (by decide) h4
    · exact absurd h5 (by decide)
    · exact ne_run_echo_of_short "save" (sentinelEnd now) (by decide) h6
    · exact absurd h7 (by decide)
  · by_cases hc : c <;> by_cases hs : s <;>
      simp [interactiveWrites, hc, hs, List.append_assoc]

end VyOS

namespace VyOS

@[simp] theorem Trace.log_wrapperCmds (t : Trace) (x : String) :
    (t.log x).wrapperCmds = t.wrapperCmds := rfl

@[simp] theorem Trace.log_logs (t : Trace) (x : String) :
    (t.log x).logs = t.logs ++ [x] := rfl

@[simp] theorem Trace.log_interactiveAttempted (t : Trace) (x : String) :
    (t.log x).interactiveAttempted = t.interactiveAttempted := rfl

@[simp] theorem Trace.log_batchAttempted (t : Trace) (x : String) :
    (t.log x).batchAttempted = t.batchAttempted := rfl

theorem runWrapperStep_snd (cmd : String) (o : ExecOutcome) (t : Trace) :
    (runWrapperStep cmd o t).2 = stepResult cmd o := rfl

theorem runWrapperStep_cmds (cmd : String) (o : ExecOutcome) (t : Trace) :
    (runWrapperStep cmd o t).1.wrapperCmds = t.wrapperCmds ++ [cmd] := rfl

theorem runSeq_snd_indep (d : Nat → ExecOutcome) (lines : List String) :
    ∀ i (t t' : Trace), (runSeq d lines i t).2 = (runSeq d lines i t').2 := by
  induction lines with
  | nil => intro i t t'; rfl
  | cons l rest ih =>
    intro i t t'
    cases hs : stepResult l (d i) with
    | error e => simp [runSeq, runWrapperStep, hs]
    | ok u => simp [runSeq, runWrapperStep, hs]; exact ih (i + 1) _ _

theorem runSeq_count_notmem (d : Nat → ExecOutcome) (a : String) :
    ∀ lines : List String, a ∉ lines → ∀ i (t : Trace),
      ((runSeq d lines i t).1.wrapperCmds).count a = t.wrapperCmds.count a := by
  intro lines
  induction lines with
  | nil => intro _ i t; rfl
  | cons l rest ih =>
    intro hna i t
    have hne : ¬(a = l) := fun he => hna (he ▸ List.mem_cons_self l rest)
    have hrest : a ∉ rest := fun hr => hna (List.mem_cons_of_mem _ hr)
    cases hs : stepResult l (d i) with
    | error e =>
      simp [runSeq, runWrapperStep, hs, List.count_append, List.count_cons, hne]
    | ok u =>
      simp only [runSeq, runWrapperStep, hs]
      rw [ih hrest]
      simp [List.count_append, List.count_cons, hne]

theorem dryBlock_snd_indep (ww : WrapperWorld) (t t' : Trace) :
    (dryBlock ww t).2 = (dryBlock ww t').2 := by
  cases h1 : stepResult "compare" ww.compareC <;>
    cases h2 : stepResult "discard" ww.discardC <;>
      simp [dryBlock, runWrapperStep, h1, h2]

theorem dryBlock_cmds (ww : WrapperWorld) (t : Trace) :
    (dryBlock ww t).1.wrapperCmds = t.wrapperCmds ++ ["compare", "discard"] := by
  cases h1 : stepResult "compare" ww.compareC <;>
    cases h2 : stepResult "discard" ww.discardC <;>
      simp [dryBlock, runWrapperStep, h1, h2]

theorem dryBlock_ok (ww : WrapperWorld) (t : Trace) (r : ApplyCore)
    (h : (dryBlock ww t).2 = .ok r) : r = ⟨false, false, false, true⟩ := by
  cases h1 : stepResult "compare" ww.compareC <;>
    cases h2 : stepResult "discard" ww.discardC <;>
      simp [dryBlock, runWrapperStep, h1, h2] at h <;> simp [← h]

theorem dryBlock_snd_ok (ww : WrapperWorld) (t : Trace)
    (h1 : stepResult "compare" ww.compareC = .ok ())
    (h2 : stepResult "discard" ww.discardC = .ok ()) :
    (dryBlock ww t).2 = .ok ⟨false, false, false, true⟩ := by
  simp [dryBlock, runWrapperStep, h1, h2]

theorem dryBlock_snd_error (ww : WrapperWorld) (t : Trace)
    (h : ¬(stepResult "compare" ww.compareC = .ok () ∧
           stepResult "discard" ww.discardC = .ok ())) :
    (dryBlock ww t).2.isOk = false := by
  cases h1 : stepResult "compare" ww.compareC <;>
    cases h2 : stepResult "discard" ww.discardC <;>
      simp [dryBlock, runWrapperStep, h1, h2, Except.isOk, Except.toBool] <;>
        exact absurd ⟨h1 ▸ rfl, h2 ▸ rfl⟩ h

theorem commitSaveBlock_snd_indep (ww : WrapperWorld) (c s : Bool) (t t' : Trace) :
    (commitSaveBlock ww c s t).2 = (commitSaveBlock ww c s t').2 := by
  cases c <;> cases s <;>
    cases h1 : stepResult "commit" ww.commitC <;>
      cases h2 : stepResult "save" ww.saveC <;>
        simp [commitSaveBlock, runWrapperStep, h1, h2]

theorem commitSaveBlock_count_end (ww : WrapperWorld) (c s : Bool) (t : Trace) :
    ((commitSaveBlock ww c s t).1.wrapperCmds).count "end" =
      t.wrapperCmds.count "end" := by
  cases c <;> cases s <;>
    cases h1 : stepResult "commit" ww.commitC <;>
      cases h2 : stepResult "save" ww.saveC <;>
        simp [commitSaveBlock, runWrapperStep, h1, h2, List.count_append,
          List.count_cons]

theorem commitSaveBlock_ok (ww : WrapperWorld) (c s : Bool) (t : Trace)
    (r : ApplyCore) (h : (commitSaveBlock ww c s t).2 = .ok r) :
    r = ⟨true, c, s, false⟩ := by
  cases c <;> cases s <;>
    cases h1 : stepResult "commit" ww.commitC <;>
      cases h2 : stepResult "save" ww.saveC <;>
        simp [commitSaveBlock, runWrapperStep, h1, h2] at h <;> simp [← h]

end VyOS

namespace VyOS

theorem wrapperBody_snd_indep (ww : WrapperWorld) (lines : List String)
    (c s d : Bool) (t t' : Trace) :
    (wrapperBody ww lines c s d t).2 = (wrapperBody ww lines c s d t').2 := by
  rcases h1 : runSeq ww.directiveC lines 0 t with ⟨t1, r1⟩
  rcases h2 : runSeq ww.directiveC lines 0 t' with ⟨t1x, r1x⟩
  have heq : r1 = r1x := by
    have h := runSeq_snd_indep ww.directiveC lines 0 t t'
    rw [h1, h2] at h
    exact h
  subst heq
  cases r1 with
  | error e => simp [wrapperBody, h1, h2]
  | ok u =>
    cases u
    cases d with
    | true => simp [wrapperBody, h1, h2, dryBlock_snd_indep ww t1 t1x]
    | false => simp [wrapperBody, h1, h2, commitSaveBlock_snd_indep ww c s t1 t1x]

theorem wrapperBody_count_end (ww : WrapperWorld) (lines : List String)
    (c s d : Bool) (t : Trace) (hl : "end" ∉ lines) :
    ((wrapperBody ww lines c s d t).1.wrapperCmds).count "end" =
      t.wrapperCmds.count "end" := by
  rcases h1 : runSeq ww.directiveC lines 0 t with ⟨t1, r1⟩
  have hc1 : t1.wrapperCmds.count "end" = t.wrapperCmds.count "end" := by
    have h := runSeq_count_notmem ww.directiveC "end" lines hl 0 t
    rw [h1] at h
    exact h
  cases r1 with
  | error e => simpa [wrapperBody, h1] using hc1
  | ok u =>
    cases u
    cases d with
    | true =>
      have hd := dryBlock_cmds ww t1
      simp [wrapperBody, h1, hd, List.count_append, List.count_cons, hc1]
    | false =>
      have hcs := commitSaveBlock_count_end ww c s t1
      simp [wrapperBody, h1, hcs, hc1]

theorem wrapperBody_ok_dry (ww : WrapperWorld) (lines : List String)
    (c s : Bool) (t : Trace) (r : ApplyCore)
    (h : (wrapperBody ww lines c s true t).2 = .ok r) :
    r = ⟨false, false, false, true⟩ := by
  rcases h1 : runSeq ww.directiveC lines 0 t with ⟨t1, r1⟩
  cases r1 with
  | error e => simp [wrapperBody, h1] at h
  | ok u =>
    cases u
    simp only [wrapperBody, h1, if_true] at h
    exact dryBlock_ok ww t1 r h

theorem wrapperBody_ok_nondry (ww : WrapperWorld) (lines : List String)
    (c s : Bool) (t : Trace) (r : ApplyCore)
    (h : (wrapperBody ww lines c s false t).2 = .ok r) :
    r = ⟨true, c, s, false⟩ := by
  rcases h1 : runSeq ww.directiveC lines 0 t with ⟨t1, r1⟩
  cases r1 with
  | error e => simp [wrapperBody, h1] at h
  | ok u =>
    cases u
    simp only [wrapperBody, h1, if_false] at h
    exact commitSaveBlock_ok ww c s t1 r h

theorem wrapperAfterBegin_snd (ww : WrapperWorld) (lines : List String)
    (c s d : Bool) (t1 : Trace) :
    (wrapperAfterBegin ww lines c s d t1).2 = (wrapperBody ww lines c s d t1).2 := by
  rcases hpb : wrapperBody ww lines c s d t1 with ⟨t2, res⟩
  cases hpe : stepResult "end" ww.endC <;>
    simp [wrapperAfterBegin, hpb, runWrapperStep, hpe]

theorem wrapperAfterBegin_count (ww : WrapperWorld) (lines : List String)
    (c s d : Bool) (t1 : Trace) (hl : "end" ∉ lines) :
    ((wrapperAfterBegin ww lines c s d t1).1.wrapperCmds).count "end" =
      t1.wrapperCmds.count "end" + 1 := by
  rcases hpb : wrapperBody ww lines c s d t1 with ⟨t2, res⟩
  have h2 : t2.wrapperCmds.count "end" = t1.wrapperCmds.count "end" := by
    have h := wrapperBody_count_end ww lines c s d t1 hl
    rw [hpb] at h
    exact h
  cases hpe : stepResult "end" ww.endC <;>
    simp [wrapperAfterBegin, hpb, runWrapperStep, hpe, List.count_append,
      List.count_cons, h2]

theorem wrapperAfterBegin_end_logged (ww : WrapperWorld) (lines : List String)
    (c s d : Bool) (t1 : Trace) (em : String)
    (hm : stepResult "end" ww.endC = .error em) :
    ("end failed: " ++ em) ∈ (wrapperAfterBegin ww lines c s d t1).1.logs := by
  rcases hpb : wrapperBody ww lines c s d t1 with ⟨t2, res⟩
  simp [wrapperAfterBegin, hpb, runWrapperStep, hm]

theorem wrapperPhase_snd_endC (ww : WrapperWorld) (o : ExecOutcome)
    (lines : List String) (c s d : Bool) (t : Trace) :
    (wrapperPhase { ww with endC := o } lines c s d t).2 =
      (wrapperPhase ww lines c s d t).2 := by
  cases hb : stepResult "begin" ww.beginC with
  | error e => simp [wrapperPhase, runWrapperStep, hb]
  | ok u =>
    cases u
    simp only [wrapperPhase, runWrapperStep, hb]
    rw [wrapperAfterBegin_snd, wrapperAfterBegin_snd]
    exact rfl

theorem wrapperPhase_count_end (ww : WrapperWorld) (lines : List String)
    (c s d : Bool) (t : Trace)
    (hb : stepResult "begin" ww.beginC = .ok ()) (hl : "end" ∉ lines) :
    ((wrapperPhase ww lines c s d t).1.wrapperCmds).count "end" =
      t.wrapperCmds.count "end" + 1 := by
  simp only [wrapperPhase, runWrapperStep, hb]
  rw [wrapperAfterBegin_count _ _ _ _ _ _ hl]
  simp [List.count_append, List.count_cons]

theorem wrapperPhase_end_logged (ww : WrapperWorld) (lines : List String)
    (c s d : Bool) (t : Trace)
    (hb : stepResult "begin" ww.beginC = .ok ()) (em : String)
    (hm : stepResult "end" ww.endC = .error em) :
    ("end failed: " ++ em) ∈ (wrapperPhase ww lines c s d t).1.logs := by
  simp only [wrapperPhase, runWrapperStep, hb]
  exact wrapperAfterBegin_end_logged ww lines c s d _ em hm

theorem wrapperPhase_ok_dry (ww : WrapperWorld) (lines : List String)
    (c s : Bool) (t : Trace) (r : ApplyCore)
    (h : (wrapperPhase ww lines c s true t).2 = .ok r) :
    r = ⟨false, false, false, true⟩ := by
  cases hb : stepResult "begin" ww.beginC with
  | error e => simp [wrapperPhase, runWrapperStep, hb] at h
  | ok u =>
    cases u
    simp only [wrapperPhase, runWrapperStep, hb] at h
    rw [wrapperAfterBegin_snd] at h
    exact wrapperBody_ok_dry ww lines c s _ r h

theorem batchStep_snd_indep (o : ExecOutcome) (c s d : Bool) (script : String)
    (t t' : Trace) :
    (batchStep o c s d script t).2 = (batchStep o c s d script t').2 := by
  cases o with
  | err m => simp [batchStep]
  | done out errS code =>
    cases code with
    | none => simp [batchStep]
    | some cd => by_cases hc : cd == 0 <;> simp [batchStep, hc]

theorem batchStep_cmds (o : ExecOutcome) (c s d : Bool) (script : String)
    (t : Trace) :
    (batchStep o c s d script t).1.wrapperCmds = t.wrapperCmds := by
  cases o with
  | err m => simp [batchStep]
  | done out errS code =>
    cases code with
    | none => simp [batchStep]
    | some cd => by_cases hc : cd == 0 <;> simp [batchStep, hc]

theorem batchStep_attempted (o : ExecOutcome) (c s d : Bool) (script : String)
    (t : Trace) :
    (batchStep o c s d script t).1.batchAttempted = true := by
  cases o with
  | err m => simp [batchStep]
  | done out errS code =>
    cases code with
    | none => simp [batchStep]
    | some cd => by_cases hc : cd == 0 <;> simp [batchStep, hc]

theorem batchStep_logs_mono (o : ExecOutcome) (c s d : Bool) (script : String)
    (t : Trace) (x : String) (hx : x ∈ t.logs) :
    x ∈ (batchStep o c s d script t).1.logs := by
  cases o with
  | err m => simp [batchStep]; tauto
  | done out errS code =>
    cases code with
    | none => simp [batchStep]; tauto
    | some cd => by_cases hc : cd == 0 <;> simp [batchStep, hc] <;> tauto

theorem batchStep_ok (o : ExecOutcome) (c s d : Bool) (script : String)
    (t : Trace) (r : ApplyCore) (h : (batchStep o c s d script t).2 = .ok r) :
    r = ⟨!d, c && !d, s && !d, d⟩ := by
  cases o with
  | err m => simp [batchStep] at h
  | done out errS code =>
    cases code with
    | none => simp [batchStep] at h; simp [← h]
    | some cd =>
      by_cases hc : cd == 0 <;> simp [batchStep, hc] at h
      simp [← h]

end VyOS

namespace VyOS

theorem batchStep_interactive (o : ExecOutcome) (c s d : Bool) (script : String)
    (t : Trace) :
    (batchStep o c s d script t).1.interactiveAttempted = t.interactiveAttempted := by
  cases o with
  | err m => simp [batchStep]
  | done out errS code =>
    cases code with
    | none => simp [batchStep]
    | some cd => by_cases hc : cd == 0 <;> simp [batchStep, hc]

theorem end_notmem_setDeleteLines (cfg : String) : "end" ∉ setDeleteLinesOf cfg :=
  fun h => absurd (keep_of_mem_setDeleteLines h) (by decide)

theorem applyVyOSConfig_cmds (w : World) (req : ApplyRequest)
    (hc : w.connect = Except.ok ()) :
    (applyVyOSConfig w req).1.wrapperCmds =
      (wrapperPhase w.wrapper (setDeleteLinesOf req.configuration)
        (req.commit.getD true) (req.save.getD true) (req.dryRun.getD false)
        Trace.empty).1.wrapperCmds := by
  rcases hp : wrapperPhase w.wrapper (setDeleteLinesOf req.configuration)
      (req.commit.getD true) (req.save.getD true) (req.dryRun.getD false)
      Trace.empty with ⟨t1, pr⟩
  cases pr with
  | ok r0 => simp [applyVyOSConfig, hc, hp]
  | error e =>
    cases hi : w.interactive with
    | ok v => cases v; simp [applyVyOSConfig, hc, hp, hi]
    | error ie =>
      simp only [applyVyOSConfig, hc, hp, hi]
      rw [batchStep_cmds]
      simp

theorem applyVyOSConfig_interactive_on_error (w : World) (req : ApplyRequest)
    (e : String) (hc : w.connect = Except.ok ())
    (hp2 : (wrapperPhase w.wrapper (setDeleteLinesOf req.configuration)
        (req.commit.getD true) (req.save.getD true) (req.dryRun.getD false)
        Trace.empty).2 = Except.error e) :
    (applyVyOSConfig w req).1.interactiveAttempted = true := by
  rcases hp : wrapperPhase w.wrapper (setDeleteLinesOf req.configuration)
      (req.commit.getD true) (req.save.getD true) (req.dryRun.getD false)
      Trace.empty with ⟨t1, pr⟩
  have hpr : pr = Except.error e := by rw [hp] at hp2; exact hp2
  subst hpr
  cases hi : w.interactive with
  | ok v => cases v; simp [applyVyOSConfig, hc, hp, hi]
  | error ie =>
    simp only [applyVyOSConfig, hc, hp, hi]
    rw [batchStep_interactive]
    simp

theorem applyVyOSConfig_logs_mono (w : World) (req : ApplyRequest) (x : String)
    (hc : w.connect = Except.ok ())
    (hx : x ∈ (wrapperPhase w.wrapper (setDeleteLinesOf req.configuration)
        (req.commit.getD true) (req.save.getD true) (req.dryRun.getD false)
        Trace.empty).1.logs) :
    x ∈ (applyVyOSConfig w req).1.logs := by
  rcases hp : wrapperPhase w.wrapper (setDeleteLinesOf req.configuration)
      (req.commit.getD true) (req.save.getD true) (req.dryRun.getD false)
      Trace.empty with ⟨t1, pr⟩
  rw [hp] at hx
  cases pr with
  | ok r0 => simp [applyVyOSConfig, hc, hp]; exact hx
  | error e =>
    cases hi : w.interactive with
    | ok v =>
      cases v
      simp [applyVyOSConfig, hc, hp, hi, List.mem_append]
      tauto
    | error ie =>
      simp only [applyVyOSConfig, hc, hp, hi]
      apply batchStep_logs_mono
      simp [List.mem_append]
      tauto

/-- An environment in which every remote interaction succeeds with empty
output and exit code zero. -/
def allOkWrapper : WrapperWorld :=
  ⟨.done "" "" (some 0), fun _ => .done "" "" (some 0), .done "" "" (some 0),
   .done "" "" (some 0), .done "" "" (some 0), .done "" "" (some 0),
   .done "" "" (some 0)⟩

def okWorld : World := ⟨.ok (), allOkWrapper, .ok (), .done "" "" (some 0)⟩

/-- The scenario request of the specification (two directive lines, one
comment, one blank line). -/
def baseReq : ApplyRequest :=
  ⟨"10.0.0.5", none, "vyos", some "pw", none,
   "set system host-name 'r1'\n# comment\n\nset service ssh port '22'",
   some true, some true, none⟩

def dryReq : ApplyRequest := { baseReq with dryRun := some true }

/-- C1: for every request with `dryRun = true`, any result returned by
`applyVyOSConfig` — over every environment, hence on the wrapper path,
the interactive fallback path and the batch-script fallback path alike —
has `applied = false`, `commit = false` and `saved = false`, regardless
of the requested commit/save values. -/
theorem dryRun_never_applies (w : World) (req : ApplyRequest) (r : ApplyCore)
    (hd : req.dryRun = some true)
    (h : (applyVyOSConfig w req).2 = Except.ok r) :
    r.applied = false ∧ r.commit = false ∧ r.saved = false := by
  have hdr : req.dryRun.getD false = true := by rw [hd]; rfl
  cases hw : w.connect with
  | error e => simp [applyVyOSConfig, hw] at h
  | ok u =>
    cases u
    rcases hp : wrapperPhase w.wrapper (setDeleteLinesOf req.configuration)
        (req.commit.getD true) (req.save.getD true) (req.dryRun.getD false)
        Trace.empty with ⟨t1, pr⟩
    cases pr with
    | ok r0 =>
      simp only [applyVyOSConfig, hw, hp] at h
      have hr : r0 = r := by simpa using h
      have hp2 := hp
      rw [hdr] at hp2
      have hr0 : r0 = ⟨false, false, false, true⟩ :=
        wrapperPhase_ok_dry w.wrapper (setDeleteLinesOf req.configuration)
          (req.commit.getD true) (req.save.getD true) Trace.empty r0
          (by rw [hp2])
      rw [← hr, hr0]
      exact ⟨rfl, rfl, rfl⟩
    | error e =>
      cases hi : w.interactive with
      | ok v =>
        cases v
        simp only [applyVyOSConfig, hw, hp, hi] at h
        rw [hdr] at h
        simp at h
        rw [← h]
        exact ⟨rfl, rfl, rfl⟩
      | error ie =>
        simp only [applyVyOSConfig, hw, hp, hi] at h
        have hb := batchStep_ok _ _ _ _ _ _ r h
        rw [hdr] at hb
        simp at hb
        rw [hb]
        exact ⟨rfl, rfl, rfl⟩

theorem dryRun_never_applies_witness :
    dryReq.dryRun = some true ∧
    (applyVyOSConfig okWorld dryReq).2 = Except.ok ⟨false, false, false, true⟩ ∧
    ((⟨false, false, false, true⟩ : ApplyCore).applied = false ∧
     (⟨false, false, false, true⟩ : ApplyCore).commit = false ∧
     (⟨false, false, false, true⟩ : ApplyCore).saved = false) :=
  ⟨rfl, by rfl,
   dryRun_never_applies okWorld dryReq ⟨false, false, false, true⟩ rfl (by rfl)⟩

end VyOS

namespace VyOS

/-- An environment where the session connects, the wrapper strategy is
interrupted by a rejected directive, and the interactive and batch
fallbacks both fail. -/
def rejectWorld : World :=
  ⟨.ok (),
   { allOkWrapper with directiveC := fun i =>
       if i = 0 then .done "" "Invalid command" (some 1) else .done "" "" (some 0) },
   .error "Interactive session timeout",
   .err "SSH command timeout"⟩

/-- C2 counterexample: the netmiko helper is spawned even though session
establishment succeeded — here the session transport connected
(`connect = ok`), a directive was rejected in the wrapper strategy, and
after the interactive and batch strategies also failed the route's catch
runs the helper, refuting "invoked exactly when session establishment
fails". -/
theorem netmiko_invocation_cx :
    rejectWorld.connect = Except.ok () ∧
    routeApply rejectWorld baseReq = RouteOutcome.netmiko baseReq :=
  ⟨rfl, by rfl⟩

/-- C2 amended: the netmiko helper is invoked exactly when
`applyVyOSConfig` rejects, always with the exact same request as
payload.  When session establishment fails this happens before any
strategy runs (no wrapper command issued, interactive and batch never
started); but the helper is also invoked when, after a successful
connection, every native strategy fails.  It is never invoked when some
native strategy returns a result. -/
theorem netmiko_invocation_amended (w : World) (req : ApplyRequest) :
    (∀ m, w.connect = Except.error m →
      routeApply w req = RouteOutcome.netmiko req ∧
      (applyVyOSConfig w req).1.wrapperCmds = [] ∧
      (applyVyOSConfig w req).1.interactiveAttempted = false ∧
      (applyVyOSConfig w req).1.batchAttempted = false) ∧
    (∀ e, (applyVyOSConfig w req).2 = Except.error e →
      routeApply w req = RouteOutcome.netmiko req) ∧
    (∀ r, (applyVyOSConfig w req).2 = Except.ok r →
      routeApply w req = RouteOutcome.native r (applyVyOSConfig w req).1.logs) := by
  refine ⟨?_, ?_, ?_⟩
  · intro m hm
    refine ⟨?_, ?_, ?_, ?_⟩ <;> simp [routeApply, applyVyOSConfig, hm, Trace.empty]
  · intro e he
    rcases ha : applyVyOSConfig w req with ⟨t, res⟩
    rw [ha] at he
    simp at he
    subst he
    simp [routeApply, ha]
  · intro r hr
    rcases ha : applyVyOSConfig w req with ⟨t, res⟩
    rw [ha] at hr
    simp at hr
    subst hr
    simp [routeApply, ha]

def connFailWorld : World :=
  { okWorld with connect := .error "All configured authentication methods failed" }

theorem netmiko_invocation_amended_witness :
    (connFailWorld.connect = Except.error "All configured authentication methods failed" ∧
     routeApply connFailWorld baseReq = RouteOutcome.netmiko baseReq ∧
     (applyVyOSConfig connFailWorld baseReq).1.wrapperCmds = [] ∧
     (applyVyOSConfig connFailWorld baseReq).1.interactiveAttempted = false ∧
     (applyVyOSConfig connFailWorld baseReq).1.batchAttempted = false) ∧
    ((applyVyOSConfig okWorld baseReq).2 = Except.ok ⟨true, true, true, false⟩ ∧
     routeApply okWorld baseReq =
       RouteOutcome.native ⟨true, true, true, false⟩
         (applyVyOSConfig okWorld baseReq).1.logs) := by
  have h1 := (netmiko_invocation_amended connFailWorld baseReq).1
    "All configured authentication methods failed" rfl
  have h2 := (netmiko_invocation_amended okWorld baseReq).2.2
    ⟨true, true, true, false⟩ (by rfl)
  exact ⟨⟨rfl, h1.1, h1.2.1, h1.2.2.1, h1.2.2.2⟩, ⟨by rfl, h2⟩⟩

/-- An environment where the session connects, the wrapper strategy
fails at `begin`, the interactive fallback fails, and the batch script
succeeds. -/
def batchOkWorld : World :=
  ⟨.ok (), { allOkWrapper with beginC := .err "wrapper down" },
   .error "Interactive session timeout", .done "" "" (some 0)⟩

/-- C3 counterexample: after a successful connection, when both the
Non-Interactive and the Interactive strategies fail, the Batch Script
strategy IS executed automatically as part of the same chain — the call
returns a successful applied result from the vbash fallback instead of
terminating in the Failed state. -/
theorem batch_auto_cx :
    (applyVyOSConfig batchOkWorld baseReq).1.batchAttempted = true ∧
    (applyVyOSConfig batchOkWorld baseReq).2 = Except.ok ⟨true, true, true, false⟩ :=
  ⟨rfl, by rfl⟩

/-- C3 amended: after a successful connection, if the Non-Interactive
strategy fails the Interactive strategy is attempted; if the Interactive
strategy also fails, the Batch Script strategy is executed automatically
as the next link of the chain, and the call's outcome is exactly the
batch step's outcome — it terminates in the Failed state (propagating
the batch error) only when the Batch Script strategy also fails. -/
theorem batch_auto_amended (w : World) (req : ApplyRequest) (e ie : String)
    (hc : w.connect = Except.ok ())
    (hw : (wrapperPhase w.wrapper (setDeleteLinesOf req.configuration)
        (req.commit.getD true) (req.save.getD true) (req.dryRun.getD false)
        Trace.empty).2 = Except.error e)
    (hi : w.interactive = Except.error ie) :
    (applyVyOSConfig w req).1.interactiveAttempted = true ∧
    (applyVyOSConfig w req).1.batchAttempted = true ∧
    (applyVyOSConfig w req).2 =
      (batchStep w.batch (req.commit.getD true) (req.save.getD true)
        (req.dryRun.getD false)
        (buildVyOSScript (splitLines req.configuration) (req.commit.getD true)
          (req.save.getD true) (req.dryRun.getD false)) Trace.empty).2 := by
  rcases hp : wrapperPhase w.wrapper (setDeleteLinesOf req.configuration)
      (req.commit.getD true) (req.save.getD true) (req.dryRun.getD false)
      Trace.empty with ⟨t1, pr⟩
  have hpr : pr = Except.error e := by rw [hp] at hw; exact hw
  subst hpr
  refine ⟨applyVyOSConfig_interactive_on_error w req e hc (by rw [hp]), ?_, ?_⟩
  · simp only [applyVyOSConfig, hc, hp, hi]
    rw [batchStep_attempted]
  · simp only [applyVyOSConfig, hc, hp, hi]
    exact batchStep_snd_indep _ _ _ _ _ _ _

theorem batch_auto_amended_witness :
    (batchOkWorld.connect = Except.ok () ∧
     (wrapperPhase batchOkWorld.wrapper (setDeleteLinesOf baseReq.configuration)
       (baseReq.commit.getD true) (baseReq.save.getD true)
       (baseReq.dryRun.getD false) Trace.empty).2 = Except.error "wrapper down" ∧
     batchOkWorld.interactive = Except.error "Interactive session timeout") ∧
    ((applyVyOSConfig batchOkWorld baseReq).1.interactiveAttempted = true ∧
     (applyVyOSConfig batchOkWorld baseReq).1.batchAttempted = true ∧
     (applyVyOSConfig batchOkWorld baseReq).2 =
       (batchStep batchOkWorld.batch (baseReq.commit.getD true)
         (baseReq.save.getD true) (baseReq.dryRun.getD false)
         (buildVyOSScript (splitLines baseReq.configuration)
           (baseReq.commit.getD true) (baseReq.save.getD true)
           (baseReq.dryRun.getD false)) Trace.empty).2) :=
  ⟨⟨rfl, by rfl, rfl⟩,
   batch_auto_amended batchOkWorld baseReq "wrapper down"
     "Interactive session timeout" rfl (by rfl) rfl⟩

end VyOS

namespace VyOS

theorem wrapperBody_snd_dry_all (ww : WrapperWorld) (lines : List String)
    (c s : Bool) (t1 : Trace)
    (hdir : (runSeq ww.directiveC lines 0 Trace.empty).2 = Except.ok ()) :
    (wrapperBody ww lines c s true t1).2 = (dryBlock ww Trace.empty).2 := by
  rcases hs : runSeq ww.directiveC lines 0 t1 with ⟨tS, rS⟩
  have hrS : rS = Except.ok () := by
    have h := runSeq_snd_indep ww.directiveC lines 0 t1 Trace.empty
    rw [hs, hdir] at h
    exact h
  subst hrS
  simp only [wrapperBody, hs, if_true]
  exact dryBlock_snd_indep ww tS Trace.empty

theorem wrapperAfterBegin_cmds_dry (ww : WrapperWorld) (lines : List String)
    (c s : Bool) (t1 : Trace)
    (hdir : (runSeq ww.directiveC lines 0 Trace.empty).2 = Except.ok ()) :
    "compare" ∈ (wrapperAfterBegin ww lines c s true t1).1.wrapperCmds ∧
    "discard" ∈ (wrapperAfterBegin ww lines c s true t1).1.wrapperCmds := by
  rcases hs : runSeq ww.directiveC lines 0 t1 with ⟨tS, rS⟩
  have hrS : rS = Except.ok () := by
    have h := runSeq_snd_indep ww.directiveC lines 0 t1 Trace.empty
    rw [hs, hdir] at h
    exact h
  subst hrS
  have hbody : wrapperBody ww lines c s true t1 = dryBlock ww tS := by
    simp [wrapperBody, hs]
  rcases hd : dryBlock ww tS with ⟨tD, rD⟩
  have hdc : tD.wrapperCmds = tS.wrapperCmds ++ ["compare", "discard"] := by
    have h := dryBlock_cmds ww tS
    rw [hd] at h
    exact h
  cases hpe : stepResult "end" ww.endC <;>
    simp [wrapperAfterBegin, hbody, hd, runWrapperStep, hpe, hdc, List.mem_append]

theorem wrapperPhase_cmds_dry (ww : WrapperWorld) (lines : List String)
    (c s : Bool) (t : Trace)
    (hb : stepResult "begin" ww.beginC = Except.ok ())
    (hdir : (runSeq ww.directiveC lines 0 Trace.empty).2 = Except.ok ()) :
    "compare" ∈ (wrapperPhase ww lines c s true t).1.wrapperCmds ∧
    "discard" ∈ (wrapperPhase ww lines c s true t).1.wrapperCmds := by
  simp only [wrapperPhase, runWrapperStep, hb]
  exact wrapperAfterBegin_cmds_dry ww lines c s _ hdir

theorem wrapperPhase_snd_dry_all (ww : WrapperWorld) (lines : List String)
    (c s : Bool) (t : Trace)
    (hb : stepResult "begin" ww.beginC = Except.ok ())
    (hdir : (runSeq ww.directiveC lines 0 Trace.empty).2 = Except.ok ()) :
    (wrapperPhase ww lines c s true t).2 = (dryBlock ww Trace.empty).2 := by
  simp only [wrapperPhase, runWrapperStep, hb]
  rw [wrapperAfterBegin_snd]
  exact wrapperBody_snd_dry_all ww lines c s _ hdir

/-- An environment where, inside a dry run, `compare` fails; interactive
and batch fallbacks fail too. -/
def compareFailWorld : World :=
  ⟨.ok (), { allOkWrapper with compareC := .err "compare refused" },
   .error "shell closed", .err "vbash timeout"⟩

/-- C4 counterexample: in a dry run in which `compare` fails, `discard`
is still issued, but the compare failure is NOT merely logged — the
wrapper attempt fails and the engine escalates to the interactive
strategy (and onwards), here ending in a propagated error instead of a
returned `applied=false` result. -/
theorem dry_cleanup_cx :
    "discard" ∈ (applyVyOSConfig compareFailWorld dryReq).1.wrapperCmds ∧
    (applyVyOSConfig compareFailWorld dryReq).1.interactiveAttempted = true ∧
    (applyVyOSConfig compareFailWorld dryReq).2 = Except.error "vbash timeout" := by
  refine ⟨by decide, rfl, by rfl⟩

/-- C4 amended: in the Non-Interactive strategy with `dryRun=true`,
after the directive lines are issued, `compare` is run and `discard` is
always issued even when `compare` fails; when both succeed the strategy
returns `applied=false`; but a failure of `compare` or `discard` makes
the wrapper attempt fail (after `end` cleanup) and escalate to the
Interactive strategy rather than being only logged. -/
theorem dry_cleanup_amended (w : World) (req : ApplyRequest)
    (hc : w.connect = Except.ok ())
    (hd : req.dryRun = some true)
    (hb : stepResult "begin" w.wrapper.beginC = Except.ok ())
    (hdir : (runSeq w.wrapper.directiveC (setDeleteLinesOf req.configuration) 0
        Trace.empty).2 = Except.ok ()) :
    "compare" ∈ (applyVyOSConfig w req).1.wrapperCmds ∧
    "discard" ∈ (applyVyOSConfig w req).1.wrapperCmds ∧
    (stepResult "compare" w.wrapper.compareC = Except.ok () →
     stepResult "discard" w.wrapper.discardC = Except.ok () →
     (applyVyOSConfig w req).2 = Except.ok ⟨false, false, false, true⟩) ∧
    (¬(stepResult "compare" w.wrapper.compareC = Except.ok () ∧
       stepResult "discard" w.wrapper.discardC = Except.ok ()) →
     (applyVyOSConfig w req).1.interactiveAttempted = true) := by
  have hdr : req.dryRun.getD false = true := by rw [hd]; rfl
  have hcm := applyVyOSConfig_cmds w req hc
  rw [hdr] at hcm
  refine ⟨?_, ?_, ?_, ?_⟩
  · rw [hcm]
    exact (wrapperPhase_cmds_dry w.wrapper _ _ _ _ hb hdir).1
  · rw [hcm]
    exact (wrapperPhase_cmds_dry w.wrapper _ _ _ _ hb hdir).2
  · intro h1 h2
    have hph : (wrapperPhase w.wrapper (setDeleteLinesOf req.configuration)
        (req.commit.getD true) (req.save.getD true) (req.dryRun.getD false)
        Trace.empty).2 = Except.ok ⟨false, false, false, true⟩ := by
      rw [hdr, wrapperPhase_snd_dry_all w.wrapper _ _ _ _ hb hdir]
      exact dryBlock_snd_ok w.wrapper Trace.empty h1 h2
    rcases hp : wrapperPhase w.wrapper (setDeleteLinesOf req.configuration)
        (req.commit.getD true) (req.save.getD true) (req.dryRun.getD false)
        Trace.empty with ⟨t1, pr⟩
    have hpr : pr = Except.ok ⟨false, false, false, true⟩ := by
      rw [hp] at hph
      exact hph
    subst hpr
    simp [applyVyOSConfig, hc, hp]
  · intro hno
    have hiso : (wrapperPhase w.wrapper (setDeleteLinesOf req.configuration)
        (req.commit.getD true) (req.save.getD true) (req.dryRun.getD false)
        Trace.empty).2.isOk = false := by
      rw [hdr, wrapperPhase_snd_dry_all w.wrapper _ _ _ _ hb hdir]
      exact dryBlock_snd_error w.wrapper Trace.empty hno
    rcases hp : wrapperPhase w.wrapper (setDeleteLinesOf req.configuration)
        (req.commit.getD true) (req.save.getD true) (req.dryRun.getD false)
        Trace.empty with ⟨t1, pr⟩
    rw [hp] at hiso
    cases pr with
    | ok r0 => simp [Except.isOk, Except.toBool] at hiso
    | error e =>
      exact applyVyOSConfig_interactive_on_error w req e hc (by rw [hp])

theorem dry_cleanup_amended_witness :
    (okWorld.connect = Except.ok () ∧ dryReq.dryRun = some true ∧
     stepResult "begin" okWorld.wrapper.beginC = Except.ok () ∧
     (runSeq okWorld.wrapper.directiveC (setDeleteLinesOf dryReq.configuration) 0
       Trace.empty).2 = Except.ok ()) ∧
    ("compare" ∈ (applyVyOSConfig okWorld dryReq).1.wrapperCmds ∧
     "discard" ∈ (applyVyOSConfig okWorld dryReq).1.wrapperCmds ∧
     (applyVyOSConfig okWorld dryReq).2 = Except.ok ⟨false, false, false, true⟩) ∧
    (applyVyOSConfig compareFailWorld dryReq).1.interactiveAttempted = true := by
  have h1 := dry_cleanup_amended okWorld dryReq rfl rfl (by rfl) (by rfl)
  have h2 := dry_cleanup_amended compareFailWorld dryReq rfl rfl (by rfl) (by rfl)
  refine ⟨⟨rfl, rfl, by rfl, by rfl⟩, ⟨h1.1, h1.2.1, h1.2.2.1 rfl rfl⟩, ?_⟩
  apply h2.2.2.2
  rintro ⟨ha, -⟩
  simp [stepResult, compareFailWorld, allOkWrapper] at ha

end VyOS

namespace VyOS

/-- The same environment with a different outcome for the `end` cleanup
command. -/
def World.setEnd (w : World) (o : ExecOutcome) : World :=
  { w with wrapper := { w.wrapper with endC := o } }

@[simp] theorem World.setEnd_connect (w : World) (o : ExecOutcome) :
    (w.setEnd o).connect = w.connect := rfl

@[simp] theorem World.setEnd_interactive (w : World) (o : ExecOutcome) :
    (w.setEnd o).interactive = w.interactive := rfl

@[simp] theorem World.setEnd_batch (w : World) (o : ExecOutcome) :
    (w.setEnd o).batch = w.batch := rfl

@[simp] theorem World.setEnd_wrapper (w : World) (o : ExecOutcome) :
    (w.setEnd o).wrapper = { w.wrapper with endC := o } := rfl

theorem stepErrMsg_some (cmd : String) (o : ExecOutcome) (em : String)
    (h : stepErrMsg cmd o = some em) : stepResult cmd o = Except.error em := by
  unfold stepErrMsg at h
  cases hse : stepResult cmd o with
  | ok u => rw [hse] at h; exact Option.noConfusion h
  | error m =>
    rw [hse] at h
    simp at h
    rw [h]


/-- C5: whenever the session connected and `begin` succeeded, the `end`
cleanup command is attempted exactly once over the whole call, on every
exit path of the wrapper attempt; and a failure of `end` itself is
logged (`end failed: ...`) but never changes the call's primary result
or error (the outcome is identical under any `end` outcome). -/
theorem end_cleanup_once (w : World) (req : ApplyRequest)
    (hc : w.connect = Except.ok ())
    (hb : stepResult "begin" w.wrapper.beginC = Except.ok ()) :
    ((applyVyOSConfig w req).1.wrapperCmds).count "end" = 1 ∧
    (∀ o, (applyVyOSConfig (w.setEnd o) req).2 = (applyVyOSConfig w req).2) ∧
    (∀ em, stepErrMsg "end" w.wrapper.endC = some em →
      ("end failed: " ++ em) ∈ (applyVyOSConfig w req).1.logs) := by
  refine ⟨?_, ?_, ?_⟩
  · rw [applyVyOSConfig_cmds w req hc]
    have h := wrapperPhase_count_end w.wrapper (setDeleteLinesOf req.configuration)
      (req.commit.getD true) (req.save.getD true) (req.dryRun.getD false)
      Trace.empty hb (end_notmem_setDeleteLines req.configuration)
    simpa [Trace.empty] using h
  · intro o
    rcases hp : wrapperPhase w.wrapper (setDeleteLinesOf req.configuration)
        (req.commit.getD true) (req.save.getD true) (req.dryRun.getD false)
        Trace.empty with ⟨t1, pr⟩
    rcases hp2 : wrapperPhase { w.wrapper with endC := o }
        (setDeleteLinesOf req.configuration)
        (req.commit.getD true) (req.save.getD true) (req.dryRun.getD false)
        Trace.empty with ⟨t1b, prb⟩
    have hpr : prb = pr := by
      have h := wrapperPhase_snd_endC w.wrapper o (setDeleteLinesOf req.configuration)
        (req.commit.getD true) (req.save.getD true) (req.dryRun.getD false)
        Trace.empty
      rw [hp, hp2] at h
      exact h
    subst hpr
    cases prb with
    | ok r0 => simp [applyVyOSConfig, hc, hp, hp2]
    | error e =>
      cases hi : w.interactive with
      | ok v => cases v; simp [applyVyOSConfig, hc, hp, hp2, hi]
      | error ie =>
        simp only [applyVyOSConfig, World.setEnd_connect, World.setEnd_wrapper,
          World.setEnd_interactive, World.setEnd_batch, hc, hp, hp2, hi]
        exact batchStep_snd_indep _ _ _ _ _ _ _
  · intro em hm
    exact applyVyOSConfig_logs_mono w req _ hc
      (wrapperPhase_end_logged w.wrapper (setDeleteLinesOf req.configuration)
        (req.commit.getD true) (req.save.getD true) (req.dryRun.getD false)
        Trace.empty hb em (stepErrMsg_some "end" w.wrapper.endC em hm))

def endFailWorld : World :=
  { okWorld with wrapper := { allOkWrapper with endC := .err "end boom" } }

theorem end_cleanup_once_witness :
    (endFailWorld.connect = Except.ok () ∧
     stepResult "begin" endFailWorld.wrapper.beginC = Except.ok ()) ∧
    ((applyVyOSConfig endFailWorld baseReq).1.wrapperCmds).count "end" = 1 ∧
    (applyVyOSConfig (endFailWorld.setEnd (ExecOutcome.done "" "" (some 0))) baseReq).2 =
      (applyVyOSConfig endFailWorld baseReq).2 ∧
    (stepErrMsg "end" endFailWorld.wrapper.endC = some "end boom" ∧
     ("end failed: " ++ "end boom") ∈ (applyVyOSConfig endFailWorld baseReq).1.logs) := by
  have h := end_cleanup_once endFailWorld baseReq rfl (by rfl)
  exact ⟨⟨rfl, by rfl⟩, h.1, h.2.1 _, ⟨rfl, h.2.2 "end boom" rfl⟩⟩

end VyOS
